import Mathlib

/-!
Verification of the noVNC RFB protocol engine and decoder pipeline.

Shallow embedding of the JavaScript source: byte streams are `List Nat`
(each element a byte value), stateful decoders are explicit state-passing
functions, fallible code returns `Except String`, and renderer calls are
recorded as an explicit trace.  Machine arithmetic follows the JavaScript
semantics of the source on the value ranges the protocol produces
(`x >>> n` and `x >> n` as division by `2 ^ n`, `x & m` as `Nat.land`,
`x | m` as `Nat.lor`, `Uint8Array` stores truncating `% 256`).
-/

namespace NoVNC

/-! ### Byte-stream send primitives

The send queue (`websock.js`) is not part of the sources at hand; its
push primitives are fixed by the spec and by the websock test file
(420 is sent as `[1, 164]`, 420420 as `[0, 6, 106, 68]`). -/

/-- Modelled from the spec: `sQpush16` of the ByteStream writes a u16
big-endian (websock.js is missing from the sources; behaviour fixed by
spec section 4.1 and the websock tests). -/
def push16 (v : Nat) : List Nat := [v / 256 % 256, v % 256]

/-- Modelled from the spec: `sQpush32` of the ByteStream writes a u32
big-endian (websock.js is missing from the sources; behaviour fixed by
spec section 4.1 and the websock tests). -/
def push32 (v : Nat) : List Nat :=
  [v / 16777216 % 256, v / 65536 % 256, v / 256 % 256, v % 256]

/-! ### C1: QEMUExtendedKeyEvent client message (rfb.js 2829-2851) -/

/-- Embedding of `getRFBkeycode` inside `RFB.messages.QEMUExtendedKeyEvent`:
`upperByte = keycode >> 8`, `lowerByte = keycode & 0xff`; the scancode is
rewritten only when `upperByte === 0xe0 && lowerByte < 0x7f`. -/
def getRFBkeycode (keycode : Nat) : Nat :=
  let upperByte := keycode >>> 8
  let lowerByte := keycode &&& 0xff
  if upperByte = 0xe0 ∧ lowerByte < 0x7f then lowerByte ||| 0x80 else keycode

/-- Embedding of `RFB.messages.QEMUExtendedKeyEvent`: the bytes flushed on
the wire for one call. -/
def qemuExtendedKeyEvent (keysym down keycode : Nat) : List Nat :=
  [255, 0] ++ push16 down ++ push32 keysym ++ push32 (getRFBkeycode keycode)

/-- Keycode translation exactly as claim C1 words it: rewrite whenever
`keycode >> 8 == 0xe0`, with no further condition on the low byte. -/
def qemuClaimKeycode (keycode : Nat) : Nat :=
  if keycode >>> 8 = 0xe0 then (keycode &&& 0xff) ||| 0x80 else keycode

/-- Wire bytes exactly as claim C1 words them. -/
def qemuClaimBytes (keysym down keycode : Nat) : List Nat :=
  [255, 0] ++ push16 down ++ push32 keysym ++ push32 (qemuClaimKeycode keycode)

/-! ### C2: extended-clipboard Provide text (rfb.js 2295-2354) -/

/-- First index at which `needle` occurs as a contiguous run inside the
haystack: the JavaScript `String.prototype.indexOf` that underlies
`String.prototype.replace` with a string pattern. -/
def jsFindSub (needle : List Char) : List Char → Option Nat
  | [] => if needle.isPrefixOf ([] : List Char) then some 0 else none
  | c :: t =>
    if needle.isPrefixOf (c :: t) then some 0
    else (jsFindSub needle t).map (· + 1)

/-- The JavaScript `String.prototype.replace` with a plain-string search
pattern: only the first occurrence is replaced. -/
def jsReplaceFirst (search repl s : List Char) : List Char :=
  match jsFindSub search s with
  | none => s
  | some i => s.take i ++ repl ++ s.drop (i + search.length)

/-- Embedding of rfb.js 2341-2343: drop the last character when the
string is non-empty and ends in NUL (`slice(0, -1)`). -/
def stripTrailingNul (s : List Char) : List Char :=
  if 0 < s.length ∧ s.getLast? = some (Char.ofNat 0) then s.dropLast else s

/-- Embedding of the text handling for an incoming extended-clipboard
Provide carrying the Text format (rfb.js 2341-2345), applied to the
UTF-8 decoded payload: strip one trailing NUL, then
`textData.replace("\r\n", "\n")`. -/
def handleClipboardProvideText (textData : List Char) : List Char :=
  jsReplaceFirst [Char.ofNat 13, Char.ofNat 10] [Char.ofNat 10]
    (stripTrailingNul textData)

/-- Newline canonicalization exactly as claim C2 words it: every
occurrence of CRLF, of a lone CR and of a lone LF becomes LF. -/
def canonicalizeNewlines : List Char → List Char
  | [] => []
  | [c] => if c = Char.ofNat 13 then [Char.ofNat 10] else [c]
  | c :: d :: rest =>
    if c = Char.ofNat 13 ∧ d = Char.ofNat 10 then
      Char.ofNat 10 :: canonicalizeNewlines rest
    else if c = Char.ofNat 13 then
      Char.ofNat 10 :: canonicalizeNewlines (d :: rest)
    else
      c :: canonicalizeNewlines (d :: rest)

/-- Dispatched clipboard text as claim C2 words it: full CRLF
canonicalization of the UTF-8 decoded payload, trailing NUL stripped. -/
def clipboardClaimText (s : List Char) : List Char :=
  canonicalizeNewlines (stripTrailingNul s)

/-- Occurrence test: does `needle` start at offset `i` of `hay`? -/
def subAt (needle hay : List Char) (i : Nat) : Bool :=
  needle.isPrefixOf (hay.drop i)

/-! ### C5: JPEG decoder table cache (unnamed part_004, `JPEGDecoder`) -/

/-- Type byte of a parsed JPEG segment (a segment starts `0xFF, type`). -/
def segType (s : List Nat) : Nat := s.getD 1 0

/-- The JPEG decoder's cache of the last seen Huffman (0xC4) and
quantization (0xDB) table segments. -/
structure JpegCache where
  cachedQuantTables : List (List Nat)
  cachedHuffmanTables : List (List Nat)
  deriving DecidableEq, Repr

/-- The JavaScript `Array.prototype.findIndex`: index of the first
element satisfying the predicate. -/
def jsFindIndex (p : List Nat → Bool) : List (List Nat) → Option Nat
  | [] => none
  | s :: rest => if p s then some 0 else (jsFindIndex p rest).map (· + 1)

/-- SOF test used by `JPEGDecoder.decodeRect`: type 0xC0 or 0xC2. -/
def isSOF (s : List Nat) : Bool := segType s == 0xC0 || segType s == 0xC2

/-- The while loop at the top of `JPEGDecoder.decodeRect`: collect
segments until (and including) the End-Of-Image segment (type 0xD9);
`none` models blocking on an unterminated stream. -/
def takeThroughEOI : List (List Nat) → Option (List (List Nat))
  | [] => none
  | s :: rest =>
    if segType s = 0xD9 then some [s]
    else (takeThroughEOI rest).map (s :: ·)

/-- Embedding of `JPEGDecoder.decodeRect` from the point the segment list
is complete: collect DHT (0xC4) and DQT (0xDB) segments, require an SOF,
splice the cached quantization tables then the cached Huffman tables at
`sofIndex + 1` when the respective list is empty, emit the concatenated
bytes, and finally replace each non-empty cache. -/
def jpegProcessSegments (cache : JpegCache) (segments : List (List Nat)) :
    Except String (List Nat × JpegCache) :=
  let huffmanTables := segments.filter (fun s => segType s == 0xC4)
  let quantTables := segments.filter (fun s => segType s == 0xDB)
  match jsFindIndex isSOF segments with
  | none => .error "Illegal JPEG image without SOF"
  | some sofIndex =>
    let segs1 := if quantTables.isEmpty then
        segments.take (sofIndex + 1) ++ cache.cachedQuantTables ++
          segments.drop (sofIndex + 1)
      else segments
    let segs2 := if huffmanTables.isEmpty then
        segs1.take (sofIndex + 1) ++ cache.cachedHuffmanTables ++
          segs1.drop (sofIndex + 1)
      else segs1
    .ok (segs2.flatten,
      { cachedHuffmanTables :=
          if huffmanTables.isEmpty then cache.cachedHuffmanTables
          else huffmanTables,
        cachedQuantTables :=
          if quantTables.isEmpty then cache.cachedQuantTables
          else quantTables })

/-- Embedding of the whole `JPEGDecoder.decodeRect` over a stream of
parsed segments. -/
def jpegDecodeRect (cache : JpegCache) (segStream : List (List Nat)) :
    Except String (List Nat × JpegCache) :=
  match takeThroughEOI segStream with
  | none => .error "blocked: no EOI segment"
  | some segments => jpegProcessSegments cache segments

/-! ### C7: Tight compact length (tight.js 215-228) -/

/-- Embedding of the length decoder at the top of `TightDecoder._readData`:
`len = byte & 0x7f`; while `byte & 0x80` is set read another byte, the
second contributing `(byte & 0x7f) << 7` and the third `byte << 14`
(terminal).  Returns the decoded length and the unconsumed input, or
`none` when the input runs dry. -/
def readCompactLen (input : List Nat) : Option (Nat × List Nat) :=
  match input with
  | [] => none
  | b0 :: r0 =>
    let len0 := b0 &&& 0x7f
    if b0 &&& 0x80 ≠ 0 then
      match r0 with
      | [] => none
      | b1 :: r1 =>
        let len1 := len0 ||| ((b1 &&& 0x7f) <<< 7)
        if b1 &&& 0x80 ≠ 0 then
          match r1 with
          | [] => none
          | b2 :: r2 => some (len1 ||| (b2 <<< 14), r2)
        else some (len1, r1)
    else some (len0, r0)

/-- Modelled from the spec: the compact-length encoding readCompactLen is
claimed to invert — a 1-3 byte variable-length integer, 7 low bits per
byte little-endian-first, continuation bit 0x80 on every byte but the
last. -/
def encodeCompactLen (n : Nat) : List Nat :=
  if n < 128 then [n]
  else if n < 16384 then [n % 128 + 128, n / 128]
  else [n % 128 + 128, n / 128 % 128 + 128, n / 16384]

/-! ### C3: RA2ne credentials plaintext (rfb.js 1875-1912) -/

/-- Writes the bytes of `src` (truncated to u8 as a `Uint8Array` store
does) into `arr` starting at index `start`: the embedding of the
`for`-loops that copy username and password into `credentials`. -/
def fillFrom : List Nat → Nat → List Nat → List Nat
  | arr, _, [] => arr
  | arr, start, b :: rest => fillFrom (arr.set start (b % 256)) (start + 1) rest

/-- Embedding of the `credentials` buffer construction of
`_negotiateRA2neAuth` step 7: a zero-filled `Uint8Array` of size
`username.length + password.length + 2`, with `credentials[0] = userLen`,
`credentials[userLen + 1] = passLen`, the username copied to offset 1 and
the password to offset `userLen + 2`. -/
def ra2Credentials (username password : List Nat) : List Nat :=
  fillFrom
    (fillFrom
      (((List.replicate (username.length + password.length + 2) 0).set 0
          (username.length % 256)).set (username.length + 1)
        (password.length % 256))
      1 username)
    (username.length + 2) password

/-- Embedding of the step-7 plaintext selection: the username is the
UTF-8 credential sliced to 255 bytes when subtype is 1 and empty
otherwise; the password is always sliced to 255 bytes. -/
def ra2CredentialsPlaintext (subtype : Nat) (user pass : List Nat) : List Nat :=
  let username := if subtype = 1 then user.take 255 else []
  ra2Credentials username (pass.take 255)

/-- Step-7 plaintext exactly as claim C3 words it: u8 userLen, username,
a 0x00 separator byte, u8 passLen, password. -/
def ra2ClaimCredentials (username password : List Nat) : List Nat :=
  username.length :: username ++ 0x00 :: password.length :: password

/-! ### Renderer trace -/

/-- One call on the renderer contract, as a decoder emits it. -/
inductive DispCall where
  | fillRect (x y w h : Nat) (color : Option (List Nat))
  | blitImage (x y w h : Nat) (data : List Nat)
  | copyImage (srcX srcY dstX dstY w h : Nat)
  deriving DecidableEq, Repr

/-- Number of pixels a renderer call covers. -/
def dispArea : DispCall → Nat
  | .fillRect _ _ w h _ => w * h
  | .blitImage _ _ w h _ => w * h
  | .copyImage _ _ _ _ w h => w * h

/-- The alpha-forcing loop shared by the Raw decoder and Hextile raw
tiles: `data[i*4 + 3] = 255` for every pixel. -/
def forceOpaque (data : List Nat) (pixels : Nat) : List Nat :=
  (List.range pixels).foldl (fun d i => d.set (i * 4 + 3) 255) data

/-! ### C8: zero-size rectangles (copyrect.js, rre.js, raw.js) -/

/-- Embedding of `CopyRectDecoder.decodeRect`: `rQwait` yields `false`
with nothing consumed when fewer than 4 bytes are buffered; otherwise
read `srcX:u16, srcY:u16` and, unless the rectangle is empty, emit
`copyImage`. -/
def copyRectDecodeRect (x y width height : Nat) (input : List Nat) :
    Bool × List DispCall × List Nat :=
  match input with
  | dx1 :: dx0 :: dy1 :: dy0 :: rest =>
    let deltaX := dx1 * 256 + dx0
    let deltaY := dy1 * 256 + dy0
    if width = 0 ∨ height = 0 then (true, [], rest)
    else (true, [.copyImage deltaX deltaY x y width height], rest)
  | _ => (false, [], input)

/-- Depth-8 pixel expansion of `RawDecoder.decodeRect`: 2 bits per
channel scaled by 255/3, alpha forced to 255. -/
def rawExpand8 (data : List Nat) : List Nat :=
  data.flatMap (fun b =>
    [(b >>> 0 &&& 0x3) * 255 / 3, (b >>> 2 &&& 0x3) * 255 / 3,
     (b >>> 4 &&& 0x3) * 255 / 3, 255])

/-- Embedding of `RawDecoder.decodeRect`: empty rectangles return before
reading anything; otherwise `width*height*pixelSize` bytes are read
(pixelSize 1 at depth 8, else 4), expanded at depth 8, alpha-forced and
blitted. -/
def rawDecodeRect (x y width height depth : Nat) (input : List Nat) :
    Except String (List DispCall × List Nat) :=
  if width = 0 ∨ height = 0 then .ok ([], input)
  else
    let pixelSize := if depth = 8 then 1 else 4
    let bytes := width * height * pixelSize
    if bytes ≤ input.length then
      let raw := input.take bytes
      let data := if depth = 8 then rawExpand8 raw else raw
      .ok ([.blitImage x y width height (forceOpaque data (width * height))],
           input.drop bytes)
    else .error "blocked"

/-- Subrectangle loop of `RREDecoder.decodeRect`: each subrect is
`color(4), sx:u16, sy:u16, sw:u16, sh:u16` filled at the offset
position. -/
def rreSubrects (x y : Nat) :
    Nat → List Nat → Except String (List DispCall × List Nat)
  | 0, input => .ok ([], input)
  | n + 1, input =>
    match input with
    | c0 :: c1 :: c2 :: c3 :: sx1 :: sx0 :: sy1 :: sy0 ::
        sw1 :: sw0 :: sh1 :: sh0 :: rest =>
      match rreSubrects x y n rest with
      | .ok (calls, restFinal) =>
        .ok (.fillRect (x + (sx1 * 256 + sx0)) (y + (sy1 * 256 + sy0))
               (sw1 * 256 + sw0) (sh1 * 256 + sh0)
               (some [c0, c1, c2, c3]) :: calls,
             restFinal)
      | .error e => .error e
    | _ => .error "blocked"

/-- Embedding of `RREDecoder.decodeRect` with its resumable `_subrects`
state: when the state is 0, read `subrects:u32` and a 4-byte background,
fill the whole rectangle with it, then run the subrectangle loop. -/
def rreDecodeRect (x y width height : Nat) (subrectsState : Nat)
    (input : List Nat) : Except String (Nat × List DispCall × List Nat) :=
  if subrectsState = 0 then
    match input with
    | n3 :: n2 :: n1 :: n0 :: b0 :: b1 :: b2 :: b3 :: rest =>
      let subrects := n3 * 16777216 + n2 * 65536 + n1 * 256 + n0
      match rreSubrects x y subrects rest with
      | .ok (calls, restFinal) =>
        .ok (0, .fillRect x y width height (some [b0, b1, b2, b3]) :: calls,
             restFinal)
      | .error e => .error e
    | _ => .error "blocked"
  else
    match rreSubrects x y subrectsState input with
    | .ok (calls, restFinal) => .ok (0, calls, restFinal)
    | .error e => .error e

/-! ### C6: Tight stream-reset bits (tight.js 22-52) -/

/-- One operation on the decoder's four inflate streams. -/
inductive ZAction where
  | reset (i : Nat)
  | inflate (i : Nat)
  deriving DecidableEq, Repr

/-- The reset loop at the top of `TightDecoder.decodeRect`: stream `i`
(0..3) is reset exactly when `(ctl >> i) & 1` is set. -/
def tightResets (ctl : Nat) : List ZAction :=
  (List.range 4).filterMap
    (fun i => if (ctl >>> i) &&& 1 = 1 then some (.reset i) else none)

/-- Embedding of `TightDecoder._readData` as byte consumption: a compact
length, then that many bytes. -/
def tightReadData (input : List Nat) :
    Except String (List Nat × List Nat) :=
  match readCompactLen input with
  | none => .error "blocked"
  | some (len, rest) =>
    if len ≤ rest.length then .ok (rest.take len, rest.drop len)
    else .error "blocked"

/-- Embedding of `TightDecoder._copyFilter`: `width*height*3` bytes,
read raw when shorter than 12, otherwise inflated through the chosen
stream. -/
def tightCopyFilter (streamId width height : Nat) (input : List Nat) :
    Except String (List ZAction × List Nat) :=
  let uncompressedSize := width * height * 3
  if uncompressedSize = 0 then .ok ([], input)
  else if uncompressedSize < 12 then
    if uncompressedSize ≤ input.length then
      .ok ([], input.drop uncompressedSize)
    else .error "blocked"
  else
    match tightReadData input with
    | .ok (_, rest) => .ok ([.inflate streamId], rest)
    | .error e => .error e

/-- Embedding of `TightDecoder._paletteFilter`: `numColors = u8 + 1`,
a `3*numColors`-byte palette, then `⌈width*bpp/8⌉*height` bytes with
`bpp = 1` when `numColors ≤ 2` else 8, raw when shorter than 12,
otherwise inflated through the chosen stream. -/
def tightPaletteFilter (streamId width height : Nat) (input : List Nat) :
    Except String (List ZAction × List Nat) :=
  match input with
  | [] => .error "blocked"
  | b :: rest =>
    let numColors := b + 1
    let paletteSize := numColors * 3
    if paletteSize ≤ rest.length then
      let rest2 := rest.drop paletteSize
      let bpp := if numColors ≤ 2 then 1 else 8
      let rowSize := (width * bpp + 7) / 8
      let uncompressedSize := rowSize * height
      if uncompressedSize = 0 then .ok ([], rest2)
      else if uncompressedSize < 12 then
        if uncompressedSize ≤ rest2.length then
          .ok ([], rest2.drop uncompressedSize)
        else .error "blocked"
      else
        match tightReadData rest2 with
        | .ok (_, rest3) => .ok ([.inflate streamId], rest3)
        | .error e => .error e
    else .error "blocked"

/-- Embedding of `TightDecoder._basicRect`: a filter byte follows when
`ctl2 & 0x4` is set (implicit CopyFilter otherwise), the stream id is
`ctl2 & 0x3`; filter 0 is copy, 1 palette, 2 the unimplemented gradient,
anything else illegal. -/
def tightBasic (ctl2 width height : Nat) (input : List Nat) :
    Except String (List ZAction × List Nat) :=
  let fr : Option (Nat × List Nat) :=
    if ctl2 &&& 0x4 ≠ 0 then
      match input with
      | f :: rest => some (f, rest)
      | [] => none
    else some (0, input)
  match fr with
  | none => .error "blocked"
  | some (filter, rest) =>
    match filter with
    | 0 => tightCopyFilter (ctl2 &&& 0x3) width height rest
    | 1 => tightPaletteFilter (ctl2 &&& 0x3) width height rest
    | 2 => .error "Gradient filter not implemented"
    | _ => .error "Illegal tight filter"

/-- Embedding of `TightDecoder.decodeRect`: the control byte's low four
bits reset the inflate streams before anything else; the high bits pick
fill (0x08), jpeg (0x09), png (0x0A, illegal in Tight), basic
(bit 3 clear) or an error.  Returns the stream actions performed in
order, and the unconsumed input or the thrown error. -/
def tightDecodeRect (width height : Nat) (input : List Nat) :
    List ZAction × Except String (List Nat) :=
  match input with
  | [] => ([], .error "blocked")
  | ctl :: rest =>
    let resets := tightResets ctl
    if ctl >>> 4 = 0x08 then
      (resets, match rest with
        | _ :: _ :: _ :: r => .ok r
        | _ => .error "blocked")
    else if ctl >>> 4 = 0x09 then
      (resets, match tightReadData rest with
        | .ok (_, r) => .ok r
        | .error e => .error e)
    else if ctl >>> 4 = 0x0A then
      (resets, .error "PNG received in standard Tight rect")
    else if (ctl >>> 4) &&& 0x08 = 0 then
      match tightBasic (ctl >>> 4) width height rest with
      | .ok (acts, r) => (resets ++ acts, .ok r)
      | .error e => (resets, .error e)
    else
      (resets, .error "Illegal tight compression received")

/-! ### C4: Hextile blank-after-raw tiles (hextile.js 23-103) -/

/-- Per-connection Hextile decoder state during a rectangle: the 16·16·4
scratch buffer, the foreground/background palette (unset until read) and
the previous tile's subencoding. -/
structure HexState where
  tileBuffer : List Nat
  foreground : Option (List Nat)
  background : Option (List Nat)
  lastSubEncoding : Nat
  deriving DecidableEq, Repr

/-- The background fill of the tile scratch buffer (hextile.js 61-67):
pixel `k` gets the background's three channels and alpha 255. -/
def hexFillBuffer (data : List Nat) (bg : List Nat) (pixels : Nat) :
    List Nat :=
  (List.range pixels).foldl
    (fun d k =>
      (((d.set (4 * k) (bg.getD 0 0)).set (4 * k + 1) (bg.getD 1 0)).set
          (4 * k + 2) (bg.getD 2 0)).set (4 * k + 3) 255)
    data

/-- The subrect paint loops (hextile.js 88-96). -/
def hexPaintSubrect (data color : List Nat) (tw sx sy sw sh : Nat) :
    List Nat :=
  (List.range sh).foldl
    (fun d j =>
      (List.range sw).foldl
        (fun d2 i =>
          let p := (sx + i + (sy + j) * tw) * 4
          (((d2.set p (color.getD 0 0)).set (p + 1) (color.getD 1 0)).set
              (p + 2) (color.getD 2 0)).set (p + 3) 255)
        d)
    data

/-- The subrect read loop (hextile.js 70-97): an optional 4-byte colour
when SubrectsColoured (0x10) is set — the foreground otherwise — then
`xy` and `wh` bytes, painting `(wh>>4)+1` by `(wh&0xf)+1` at
`(xy>>4, xy&0xf)`. -/
def hexSubrects (subencoding tw : Nat) (foreground : Option (List Nat)) :
    Nat → List Nat → List Nat → Except String (List Nat × List Nat)
  | 0, data, input => .ok (data, input)
  | s + 1, data, input =>
    let getColor : Except String (List Nat × List Nat) :=
      if subencoding &&& 0x10 ≠ 0 then
        match input with
        | c0 :: c1 :: c2 :: c3 :: rest => .ok ([c0, c1, c2, c3], rest)
        | _ => .error "blocked"
      else
        match foreground with
        | some f => .ok (f, input)
        | none => .error "TypeError: foreground is undefined"
    match getColor with
    | .error e => .error e
    | .ok (color, rest) =>
      match rest with
      | xy :: wh :: rest2 =>
        hexSubrects subencoding tw foreground s
          (hexPaintSubrect data color tw (xy >>> 4) (xy &&& 0x0f)
            ((wh >>> 4) + 1) ((wh &&& 0x0f) + 1))
          rest2
      | _ => .error "blocked"

/-- Embedding of one iteration of the tile loop of
`HextileDecoder.decodeRect` (hextile.js 25-102): read the subencoding
byte (reject above 30); subencoding 0 fills the tile with the current
background unless the previous tile was Raw, in which case it is ignored
with no renderer call; the Raw bit reads `tw*th*4` bytes and blits them
alpha-forced; otherwise optional background/foreground reads, a
background fill of the scratch buffer, the subrect loop when AnySubrects
(0x08) is set, and a blit of the scratch buffer. -/
def hextileTile (x y width height tilesX currTile : Nat) (st : HexState)
    (input : List Nat) :
    Except String (HexState × List DispCall × List Nat) :=
  match input with
  | [] => .error "blocked"
  | subencoding :: rest =>
    if subencoding > 30 then
      .error "Illegal hextile subencoding"
    else
      let tx := x + currTile % tilesX * 16
      let ty := y + currTile / tilesX * 16
      let tw := min 16 (x + width - tx)
      let th := min 16 (y + height - ty)
      if subencoding = 0 then
        if st.lastSubEncoding &&& 0x01 ≠ 0 then
          .ok ({ st with lastSubEncoding := subencoding }, [], rest)
        else
          .ok ({ st with lastSubEncoding := subencoding },
               [.fillRect tx ty tw th st.background], rest)
      else if subencoding &&& 0x01 ≠ 0 then
        if tw * th * 4 ≤ rest.length then
          .ok ({ st with lastSubEncoding := subencoding },
               [.blitImage tx ty tw th
                  (forceOpaque (rest.take (tw * th * 4)) (tw * th))],
               rest.drop (tw * th * 4))
        else .error "blocked"
      else
        let readBg : Except String (Option (List Nat) × List Nat) :=
          if subencoding &&& 0x02 ≠ 0 then
            match rest with
            | b0 :: b1 :: b2 :: b3 :: r => .ok (some [b0, b1, b2, b3], r)
            | _ => .error "blocked"
          else .ok (st.background, rest)
        match readBg with
        | .error e => .error e
        | .ok (bg, rest1) =>
          let readFg : Except String (Option (List Nat) × List Nat) :=
            if subencoding &&& 0x04 ≠ 0 then
              match rest1 with
              | f0 :: f1 :: f2 :: f3 :: r => .ok (some [f0, f1, f2, f3], r)
              | _ => .error "blocked"
            else .ok (st.foreground, rest1)
          match readFg with
          | .error e => .error e
          | .ok (fg, rest2) =>
            match bg with
            | none => .error "TypeError: background is undefined"
            | some bgv =>
              let data0 := hexFillBuffer st.tileBuffer bgv (tw * th)
              if subencoding &&& 0x08 ≠ 0 then
                match rest2 with
                | cnt :: rest3 =>
                  match hexSubrects subencoding tw fg cnt data0 rest3 with
                  | .error e => .error e
                  | .ok (data1, rest4) =>
                    .ok ({ tileBuffer := data1, foreground := fg,
                           background := bg,
                           lastSubEncoding := subencoding },
                         [.blitImage tx ty tw th data1], rest4)
                | [] => .error "blocked"
              else
                .ok ({ tileBuffer := data0, foreground := fg,
                       background := bg, lastSubEncoding := subencoding },
                     [.blitImage tx ty tw th data0], rest2)

/-- The tile loop of `HextileDecoder.decodeRect`, iterating
`hextileTile` over the remaining tile count. -/
def hextileTiles (x y width height tilesX : Nat) :
    Nat → Nat → HexState → List Nat →
    Except String (HexState × List DispCall × List Nat)
  | _, 0, st, input => .ok (st, [], input)
  | currTile, n + 1, st, input =>
    match hextileTile x y width height tilesX currTile st input with
    | .error e => .error e
    | .ok (st1, calls, rest) =>
      match hextileTiles x y width height tilesX (currTile + 1) n st1 rest with
      | .error e => .error e
      | .ok (st2, calls2, rest2) => .ok (st2, calls ++ calls2, rest2)

/-- Embedding of `HextileDecoder.decodeRect`: `⌈width/16⌉ · ⌈height/16⌉`
tiles row-major; foreground and background start unset and
`lastSubEncoding` starts 0; the scratch buffer persists across
rectangles and is passed in. -/
def hextileDecodeRect (x y width height : Nat) (tileBuffer : List Nat)
    (input : List Nat) :
    Except String (HexState × List DispCall × List Nat) :=
  let tilesX := (width + 15) / 16
  let tilesY := (height + 15) / 16
  hextileTiles x y width height tilesX 0 (tilesX * tilesY)
    { tileBuffer := tileBuffer, foreground := none, background := none,
      lastSubEncoding := 0 } input

/-! ### C9: SecurityResult handshake step (rfb.js 1996-2022) -/

/-- Handshake states of the protocol engine (`_rfbInitState`). -/
inductive RFBInitState where
  | ProtocolVersion
  | Security
  | SecurityReason
  | Authentication
  | SecurityResult
  | ClientInitialisation
  | ServerInitialisation
  deriving DecidableEq, Repr

/-- Embedding of `_handleSecurityResult`.  `version` is the negotiated
RFB version in tenths (33, 37 or 38, mirroring the float comparisons
`< 3.7` and `>= 3.8` of the source).  Returns the list of dispatched
`securityfailure` event statuses together with either an error (a thrown
string, or blocking on an incomplete read) or the new init state, the
recorded security status (`_securityStatus`, set only on the 3.8 path)
and the unconsumed input. -/
def handleSecurityResult (version : Nat) (input : List Nat) :
    List Nat × Except String (RFBInitState × Option Nat × List Nat) :=
  if version < 37 then
    ([], .ok (.ClientInitialisation, none, input))
  else
    match input with
    | s3 :: s2 :: s1 :: s0 :: rest =>
      let status := s3 * 16777216 + s2 * 65536 + s1 * 256 + s0
      if status = 0 then
        ([], .ok (.ClientInitialisation, none, rest))
      else if version ≥ 38 then
        ([], .ok (.SecurityReason, some status, rest))
      else
        ([status], .error "Security handshake failed")
    | _ => ([], .error "blocked: need 4 bytes")

/-! ### C10: ServerFence message (rfb.js 2357-2392) -/

/-- Embedding of `_handleServerFenceMsg`: 3 padding bytes, `flags:u32`,
`len:u8` clamped to 64, then `len` payload bytes.  Returns the flags of
the echoed `clientFence` (masked to `BlockBefore|BlockAfter`), the echoed
payload, and the unconsumed input; a missing Request bit (1<<31) is the
thrown string `Unexpected fence response`. -/
def handleServerFenceMsg (input : List Nat) :
    Except String (Nat × List Nat × List Nat) :=
  match input with
  | _p1 :: _p2 :: _p3 :: f3 :: f2 :: f1 :: f0 :: len :: rest =>
    let flags := f3 * 16777216 + f2 * 65536 + f1 * 256 + f0
    let length := if len > 64 then 64 else len
    if length ≤ rest.length then
      if flags &&& 2147483648 = 0 then
        .error "Unexpected fence response"
      else
        .ok (flags &&& 3, rest.take length, rest.drop length)
    else .error "blocked: short payload"
  | _ => .error "blocked: need 8 bytes"

end NoVNC

namespace NoVNC

/-- Bitwise or of a low part and a shifted high part is their sum. -/
theorem lor_mul_two_pow (a b k : Nat) (h : a < 2 ^ k) :
    a ||| 2 ^ k * b = a + 2 ^ k * b := by
  apply Nat.eq_of_testBit_eq
  intro i
  rw [Nat.testBit_lor, show a + 2 ^ k * b = 2 ^ k * b + a by omega,
    Nat.testBit_mul_pow_two_add b h i]
  rcases Nat.lt_or_ge i k with hi | hi
  · rw [if_pos hi]
    have hz : (2 ^ k * b).testBit i = false := by
      have := Nat.testBit_mul_pow_two_add b (b := 0) (i := k)
        (Nat.pos_pow_of_pos k (by norm_num)) i
      simpa [if_pos hi] using this
    rw [hz]
    simp
  · rw [if_neg (by omega)]
    have ha : a.testBit i = false :=
      Nat.testBit_lt_two_pow
        (lt_of_lt_of_le h (Nat.pow_le_pow_right (by norm_num) hi))
    have hmul : (2 ^ k * b).testBit i = b.testBit (i - k) := by
      have := Nat.testBit_mul_pow_two_add b (b := 0) (i := k)
        (Nat.pos_pow_of_pos k (by norm_num)) i
      simpa [if_neg (by omega : ¬ i < k)] using this
    rw [ha, hmul]
    simp

/-- Masking with 0x7f keeps the value modulo 128. -/
theorem land_127 (b : Nat) : b &&& 127 = b % 128 := by
  simpa using Nat.and_pow_two_sub_one_eq_mod b 7

/-- Masking with 0x80 is zero exactly when bit 7 is clear. -/
theorem land_128_eq_zero (b : Nat) : (b &&& 128 = 0) ↔ b / 128 % 2 = 0 := by
  rw [show (128 : Nat) = 2 ^ 7 by norm_num, Nat.and_two_pow b 7,
    Nat.testBit_to_div_mod]
  rcases Nat.mod_two_eq_zero_or_one (b / 2 ^ 7) with h | h
  · simp [h]
  · simp [h]

/-! ### C1 theorems -/

/-- C1 counterexample: for keycode 0xe07f (`keycode >> 8 == 0xe0` but low
byte 0x7f), the serializer sends the keycode unchanged, not
`(keycode & 0xff) | 0x80` as the claim predicts. -/
theorem qemuExtendedKeyEvent_c1_counterexample :
    qemuExtendedKeyEvent 0 0 0xe07f ≠ qemuClaimBytes 0 0 0xe07f := by
  decide

/-- C1 (amended): the QEMUExtendedKeyEvent serializer flushes
`u8 255, u8 0, u16 down, u32 keysym, u32 rfbKeycode` where
`rfbKeycode = (keycode & 0xff) | 0x80` exactly when `keycode >> 8 == 0xe0`
and additionally `(keycode & 0xff) < 0x7f`, and `rfbKeycode = keycode`
otherwise. -/
theorem qemuExtendedKeyEvent_c1_amended (keysym down keycode : Nat)
    (hk : keycode < 2147483648) :
    qemuExtendedKeyEvent keysym down keycode =
      [255, 0] ++ push16 down ++ push32 keysym ++
        push32 (if keycode / 256 = 0xe0 ∧ keycode % 256 < 0x7f
                then keycode % 256 + 0x80 else keycode) := by
  have h1 : keycode >>> 8 = keycode / 256 := Nat.shiftRight_eq_div_pow keycode 8
  have h2 : keycode &&& 0xff = keycode % 256 := by
    have := Nat.and_pow_two_sub_one_eq_mod keycode 8
    simpa using this
  unfold qemuExtendedKeyEvent getRFBkeycode
  rw [h1, h2]
  by_cases hc : keycode / 256 = 0xe0 ∧ keycode % 256 < 0x7f
  · simp only [hc, if_pos, and_self, if_true]
    have hlow : keycode % 256 < 2 ^ 7 := by omega
    have hor := lor_mul_two_pow (keycode % 256) 1 7 hlow
    norm_num at hor
    rw [hor]
  · rw [if_neg hc, if_neg hc]

/-- Closed witness for the amended C1 theorem. -/
theorem qemuExtendedKeyEvent_c1_amended_witness :
    qemuExtendedKeyEvent 0xff08 1 0xe01d =
      [255, 0] ++ push16 1 ++ push32 0xff08 ++
        push32 (if 0xe01d / 256 = 0xe0 ∧ 0xe01d % 256 < 0x7f
                then 0xe01d % 256 + 0x80 else 0xe01d) :=
  qemuExtendedKeyEvent_c1_amended 0xff08 1 0xe01d (by decide)

/-! ### C7 theorems -/

/-- C7: `readCompactLen` inverts the compact-length encoding on
`[0, 2^21)` whatever bytes follow, and decodes the five concrete vectors
`[0x7F] ↦ 0x7F`, `[0x80, 0x01] ↦ 0x80`, `[0xFF, 0x7F] ↦ 0x3FFF`,
`[0x80, 0x80, 0x01] ↦ 0x4000` and `[0xFF, 0xFF, 0x7F] ↦ 0x1FFFFF`. -/
theorem readCompactLen_c7 :
    (∀ n rest, n < 2097152 →
      readCompactLen (encodeCompactLen n ++ rest) = some (n, rest)) ∧
    readCompactLen [0x7f] = some (0x7f, []) ∧
    readCompactLen [0x80, 0x01] = some (0x80, []) ∧
    readCompactLen [0xff, 0x7f] = some (0x3fff, []) ∧
    readCompactLen [0x80, 0x80, 0x01] = some (0x4000, []) ∧
    readCompactLen [0xff, 0xff, 0x7f] = some (0x1fffff, []) := by
  refine ⟨?_, by decide, by decide, by decide, by decide, by decide⟩
  intro n rest hn
  unfold encodeCompactLen
  by_cases h1 : n < 128
  · rw [if_pos h1]
    show readCompactLen (n :: rest) = some (n, rest)
    unfold readCompactLen
    have hB : n &&& 128 = 0 := (land_128_eq_zero n).mpr (by omega)
    simp only [hB, ne_eq, not_true_eq_false, if_false, land_127]
    rw [Nat.mod_eq_of_lt h1]
  · rw [if_neg h1]
    by_cases h2 : n < 16384
    · rw [if_pos h2]
      show readCompactLen (((n % 128 + 128) :: [n / 128]) ++ rest) =
        some (n, rest)
      unfold readCompactLen
      have hB0 : (n % 128 + 128) &&& 128 ≠ 0 := by
        rw [ne_eq, land_128_eq_zero]
        omega
      have hB1 : n / 128 &&& 128 = 0 := (land_128_eq_zero (n / 128)).mpr (by omega)
      simp only [List.cons_append, List.singleton_append, hB0, hB1, ne_eq,
        not_true_eq_false, not_false_eq_true, if_true, not_true, if_false,
        land_127]
      have hval : (n % 128 + 128) % 128 ||| (n / 128 % 128) <<< 7 = n := by
        rw [Nat.shiftLeft_eq,
          show (n % 128 + 128) % 128 = n % 128 by omega,
          show n / 128 % 128 = n / 128 by omega,
          show n / 128 * 2 ^ 7 = 2 ^ 7 * (n / 128) by ring]
        rw [lor_mul_two_pow (n % 128) (n / 128) 7 (by omega)]
        omega
      rw [hval]
      simp
    · rw [if_neg h2]
      show readCompactLen
          (((n % 128 + 128) :: (n / 128 % 128 + 128) :: [n / 16384]) ++ rest) =
        some (n, rest)
      unfold readCompactLen
      have hB0 : (n % 128 + 128) &&& 128 ≠ 0 := by
        rw [ne_eq, land_128_eq_zero]
        omega
      have hB1 : (n / 128 % 128 + 128) &&& 128 ≠ 0 := by
        rw [ne_eq, land_128_eq_zero]
        omega
      simp only [List.cons_append, List.singleton_append, hB0, hB1, ne_eq,
        not_true_eq_false, not_false_eq_true, if_true, not_true, if_false,
        land_127]
      have hmid : (n % 128 + 128) % 128 ||| ((n / 128 % 128 + 128) % 128) <<< 7 =
          n % 16384 := by
        rw [Nat.shiftLeft_eq,
          show (n % 128 + 128) % 128 = n % 128 by omega,
          show (n / 128 % 128 + 128) % 128 = n / 128 % 128 by omega,
          show n / 128 % 128 * 2 ^ 7 = 2 ^ 7 * (n / 128 % 128) by ring]
        rw [lor_mul_two_pow (n % 128) (n / 128 % 128) 7 (by omega)]
        omega
      rw [hmid, Nat.shiftLeft_eq,
        show n / 16384 * 2 ^ 14 = 2 ^ 14 * (n / 16384) by ring,
        lor_mul_two_pow (n % 16384) (n / 16384) 14 (by omega),
        show 2 ^ 14 * (n / 16384) = 16384 * (n / 16384) by norm_num]
      rw [show n % 16384 + 16384 * (n / 16384) = n by omega]
      simp

/-- Closed witness for C7: the inversion applied at 0x1FFFFF with a
trailing sentinel byte. -/
theorem readCompactLen_c7_witness :
    readCompactLen (encodeCompactLen 0x1fffff ++ [5]) = some (0x1fffff, [5]) :=
  readCompactLen_c7.1 0x1fffff [5] (by norm_num)

/-! ### C2 theorems -/

/-- When no occurrence of a non-empty needle exists, `jsFindSub` finds
nothing. -/
theorem jsFindSub_none (needle : List Char) (hne : needle ≠ [])
    (hay : List Char) :
    (∀ i < hay.length, subAt needle hay i = false) →
      jsFindSub needle hay = none := by
  induction hay with
  | nil =>
    intro _
    match needle, hne with
    | a :: as, _ => simp [jsFindSub, List.isPrefixOf]
  | cons c t ih =>
    intro h
    have h0 : needle.isPrefixOf (c :: t) = false := by
      have := h 0 (by simp)
      simpa [subAt] using this
    simp only [jsFindSub, h0, Bool.false_eq_true, if_false]
    rw [ih ?_]
    · rfl
    · intro i hi
      have := h (i + 1) (by simp; omega)
      simpa [subAt] using this

/-- `jsFindSub` returns exactly the first occurrence. -/
theorem jsFindSub_some (needle hay : List Char) (i : Nat)
    (hocc : subAt needle hay i = true)
    (hmin : ∀ j < i, subAt needle hay j = false) :
    jsFindSub needle hay = some i := by
  induction hay generalizing i with
  | nil =>
    have hocc' : needle.isPrefixOf ([] : List Char) = true := by
      simpa [subAt, List.drop_nil] using hocc
    have hi0 : i = 0 := by
      by_contra hne0
      have h0 := hmin 0 (by omega)
      simp [subAt, List.drop_nil, List.drop_zero, hocc'] at h0
    subst hi0
    simp [jsFindSub, hocc']
  | cons c t ih =>
    by_cases hp : needle.isPrefixOf (c :: t) = true
    · have hi0 : i = 0 := by
        by_contra hne0
        have := hmin 0 (by omega)
        simp [subAt] at this
        rw [hp] at this
        exact absurd this (by simp)
      subst hi0
      simp [jsFindSub, hp]
    · match i with
      | 0 =>
        simp [subAt] at hocc
        exact absurd hocc (by simpa using hp)
      | i' + 1 =>
        simp only [jsFindSub, Bool.not_eq_true] at hp ⊢
        rw [hp]
        simp only [Bool.false_eq_true, if_false]
        rw [ih i' (by simpa [subAt] using hocc) ?_]
        · rfl
        · intro j hj
          have := hmin (j + 1) (by omega)
          simpa [subAt] using this

/-- C2 counterexample: for payload "A\rB" the engine dispatches "A\rB"
unchanged, not the "A\nB" that full canonicalization would give. -/
theorem handleClipboardProvideText_c2_counterexample :
    handleClipboardProvideText [Char.ofNat 65, Char.ofNat 13, Char.ofNat 66] ≠
      clipboardClaimText [Char.ofNat 65, Char.ofNat 13, Char.ofNat 66] := by
  decide

/-- C2 (amended): the dispatched clipboard text is the UTF-8 decoded
payload with one trailing NUL stripped and then only the *first*
occurrence of CRLF replaced by LF; lone CR and lone LF are left
unchanged, as are later CRLF occurrences. -/
theorem handleClipboardProvideText_c2_amended (s : List Char) :
    ((∀ i < (stripTrailingNul s).length,
        subAt [Char.ofNat 13, Char.ofNat 10] (stripTrailingNul s) i = false) →
      handleClipboardProvideText s = stripTrailingNul s) ∧
    (∀ i, subAt [Char.ofNat 13, Char.ofNat 10] (stripTrailingNul s) i = true →
      (∀ j < i,
        subAt [Char.ofNat 13, Char.ofNat 10] (stripTrailingNul s) j = false) →
      handleClipboardProvideText s =
        (stripTrailingNul s).take i ++
          Char.ofNat 10 :: (stripTrailingNul s).drop (i + 2)) := by
  constructor
  · intro h
    unfold handleClipboardProvideText jsReplaceFirst
    rw [jsFindSub_none _ (by simp) _ h]
  · intro i hocc hmin
    unfold handleClipboardProvideText jsReplaceFirst
    rw [jsFindSub_some _ _ i hocc hmin]
    simp

/-- Closed witness for the amended C2 theorem: "A\r\nB" becomes "A\nB"
via the first-occurrence case at index 1. -/
theorem handleClipboardProvideText_c2_amended_witness :
    handleClipboardProvideText
        [Char.ofNat 65, Char.ofNat 13, Char.ofNat 10, Char.ofNat 66] =
      (stripTrailingNul
          [Char.ofNat 65, Char.ofNat 13, Char.ofNat 10, Char.ofNat 66]).take 1 ++
        Char.ofNat 10 ::
          (stripTrailingNul
            [Char.ofNat 65, Char.ofNat 13, Char.ofNat 10, Char.ofNat 66]).drop 3 :=
  (handleClipboardProvideText_c2_amended _).2 1 (by decide) (by decide)

/-! ### C5 theorems -/

/-- A found index is inside the list. -/
theorem jsFindIndex_some_lt (p : List Nat → Bool) :
    ∀ (l : List (List Nat)) (i : Nat), jsFindIndex p l = some i →
      i < l.length := by
  intro l
  induction l with
  | nil => intro i h; simp [jsFindIndex] at h
  | cons s rest ih =>
    intro i h
    by_cases hp : p s = true
    · simp [jsFindIndex, hp] at h
      simp [← h]
    · simp only [jsFindIndex, hp, Bool.false_eq_true, if_false] at h
      match hr : jsFindIndex p rest with
      | none => rw [hr] at h; simp at h
      | some i' =>
        rw [hr] at h
        simp at h
        have := ih i' hr
        simp [← h]
        omega

/-- C5: `JPEGDecoder.decodeRect` fails without an SOF segment; with an
SOF at (first) index `i`, cached quantization tables are spliced
immediately after the SOF when the rectangle has no DQT segment, cached
Huffman tables likewise when it has no DHT segment, and each cache is
replaced exactly when the rectangle carries the corresponding segments. -/
theorem jpegProcessSegments_c5 (cache : JpegCache)
    (segments : List (List Nat)) :
    (jsFindIndex isSOF segments = none →
      jpegProcessSegments cache segments =
        .error "Illegal JPEG image without SOF") ∧
    (∀ i, jsFindIndex isSOF segments = some i →
      ((segments.filter (fun s => segType s == 0xDB) = [] →
        segments.filter (fun s => segType s == 0xC4) ≠ [] →
        jpegProcessSegments cache segments =
          .ok ((segments.take (i + 1) ++ cache.cachedQuantTables ++
                  segments.drop (i + 1)).flatten,
               ⟨cache.cachedQuantTables,
                segments.filter (fun s => segType s == 0xC4)⟩)) ∧
       (segments.filter (fun s => segType s == 0xC4) = [] →
        segments.filter (fun s => segType s == 0xDB) ≠ [] →
        jpegProcessSegments cache segments =
          .ok ((segments.take (i + 1) ++ cache.cachedHuffmanTables ++
                  segments.drop (i + 1)).flatten,
               ⟨segments.filter (fun s => segType s == 0xDB),
                cache.cachedHuffmanTables⟩)) ∧
       (segments.filter (fun s => segType s == 0xDB) = [] →
        segments.filter (fun s => segType s == 0xC4) = [] →
        jpegProcessSegments cache segments =
          .ok ((segments.take (i + 1) ++ cache.cachedHuffmanTables ++
                  cache.cachedQuantTables ++ segments.drop (i + 1)).flatten,
               cache)) ∧
       (segments.filter (fun s => segType s == 0xDB) ≠ [] →
        segments.filter (fun s => segType s == 0xC4) ≠ [] →
        jpegProcessSegments cache segments =
          .ok (segments.flatten,
               ⟨segments.filter (fun s => segType s == 0xDB),
                segments.filter (fun s => segType s == 0xC4)⟩)))) := by
  constructor
  · intro h
    unfold jpegProcessSegments
    rw [h]
  · intro i hi
    have hlen : (segments.take (i + 1)).length = i + 1 := by
      have := jsFindIndex_some_lt isSOF segments i hi
      have := List.length_take (l := segments) (i + 1)
      omega
    refine ⟨?_, ?_, ?_, ?_⟩
    · intro hq hh
      unfold jpegProcessSegments
      rw [hi]
      simp only [List.isEmpty_iff, hq, hh, if_pos rfl, if_neg hh]
      rfl
    · intro hh hq
      unfold jpegProcessSegments
      rw [hi]
      simp only [List.isEmpty_iff, hq, hh, if_pos rfl, if_neg hq]
      rfl
    · intro hq hh
      have h1 : (List.filter (fun s => segType s == 0xDB) segments).isEmpty
          = true := by
        rw [hq]
        rfl
      have h2 : (List.filter (fun s => segType s == 0xC4) segments).isEmpty
          = true := by
        rw [hh]
        rfl
      unfold jpegProcessSegments
      rw [hi]
      simp only [if_pos h1, if_pos h2]
      have e1 : ∀ (A B C : List (List Nat)), A.length = i + 1 →
          List.take (i + 1) (A ++ B ++ C) = A := by
        intro A B C hA
        rw [List.append_assoc, ← hA, List.take_left]
      have e2 : ∀ (A B C : List (List Nat)), A.length = i + 1 →
          List.drop (i + 1) (A ++ B ++ C) = B ++ C := by
        intro A B C hA
        rw [List.append_assoc, ← hA, List.drop_left]
      rw [e1 _ _ _ hlen, e2 _ _ _ hlen]
      simp [List.append_assoc]
    · intro hq hh
      unfold jpegProcessSegments
      rw [hi]
      simp only [List.isEmpty_iff, if_neg hq, if_neg hh]

/-- Closed witness for C5: all five behaviours at concrete segment
lists (SOF `FF C0 00 02`, DHT `FF C4 00 02`, DQT `FF DB 00 02`,
EOI `FF D9`). -/
theorem jpegProcessSegments_c5_witness :
    (jpegProcessSegments ⟨[[1]], [[2]]⟩ [[0xFF, 0xD9]] =
      .error "Illegal JPEG image without SOF") ∧
    (jpegProcessSegments ⟨[[1]], [[2]]⟩
        [[0xFF, 0xC0, 0, 2], [0xFF, 0xC4, 0, 2], [0xFF, 0xD9]] =
      .ok ([0xFF, 0xC0, 0, 2] ++ [1] ++ [0xFF, 0xC4, 0, 2] ++ [0xFF, 0xD9],
           ⟨[[1]], [[0xFF, 0xC4, 0, 2]]⟩)) ∧
    (jpegProcessSegments ⟨[[1]], [[2]]⟩
        [[0xFF, 0xC0, 0, 2], [0xFF, 0xDB, 0, 2], [0xFF, 0xD9]] =
      .ok ([0xFF, 0xC0, 0, 2] ++ [2] ++ [0xFF, 0xDB, 0, 2] ++ [0xFF, 0xD9],
           ⟨[[0xFF, 0xDB, 0, 2]], [[2]]⟩)) ∧
    (jpegProcessSegments ⟨[[1]], [[2]]⟩ [[0xFF, 0xC0, 0, 2], [0xFF, 0xD9]] =
      .ok ([0xFF, 0xC0, 0, 2] ++ [2] ++ [1] ++ [0xFF, 0xD9],
           ⟨[[1]], [[2]]⟩)) ∧
    (jpegProcessSegments ⟨[[1]], [[2]]⟩
        [[0xFF, 0xC0, 0, 2], [0xFF, 0xDB, 0, 2], [0xFF, 0xC4, 0, 2],
          [0xFF, 0xD9]] =
      .ok ([0xFF, 0xC0, 0, 2] ++ [0xFF, 0xDB, 0, 2] ++ [0xFF, 0xC4, 0, 2] ++
            [0xFF, 0xD9],
           ⟨[[0xFF, 0xDB, 0, 2]], [[0xFF, 0xC4, 0, 2]]⟩)) := by
  refine ⟨?_, ?_, ?_, ?_, ?_⟩
  · exact (jpegProcessSegments_c5 ⟨[[1]], [[2]]⟩ [[0xFF, 0xD9]]).1 (by decide)
  · have h := ((jpegProcessSegments_c5 ⟨[[1]], [[2]]⟩
        [[0xFF, 0xC0, 0, 2], [0xFF, 0xC4, 0, 2], [0xFF, 0xD9]]).2 0
        (by decide)).1 (by decide) (by decide)
    rw [h]
    rfl
  · have h := ((jpegProcessSegments_c5 ⟨[[1]], [[2]]⟩
        [[0xFF, 0xC0, 0, 2], [0xFF, 0xDB, 0, 2], [0xFF, 0xD9]]).2 0
        (by decide)).2.1 (by decide) (by decide)
    rw [h]
    rfl
  · have h := ((jpegProcessSegments_c5 ⟨[[1]], [[2]]⟩
        [[0xFF, 0xC0, 0, 2], [0xFF, 0xD9]]).2 0
        (by decide)).2.2.1 (by decide) (by decide)
    rw [h]
    rfl
  · have h := ((jpegProcessSegments_c5 ⟨[[1]], [[2]]⟩
        [[0xFF, 0xC0, 0, 2], [0xFF, 0xDB, 0, 2], [0xFF, 0xC4, 0, 2],
          [0xFF, 0xD9]]).2 0
        (by decide)).2.2.2 (by decide) (by decide)
    rw [h]
    rfl

/-! ### C3 theorems -/

/-- Reducing every element of a list of bytes modulo 256 changes
nothing. -/
theorem map_mod_256_eq : ∀ (l : List Nat), (∀ b ∈ l, b < 256) →
    l.map (· % 256) = l
  | [], _ => rfl
  | a :: t, hl => by
    simp only [List.map_cons]
    rw [Nat.mod_eq_of_lt (hl a (List.mem_cons_self a t)),
      map_mod_256_eq t (fun b hb => hl b (List.mem_cons_of_mem a hb))]

/-- Filling bytes at offset `A.length` overwrites exactly the written
region. -/
theorem fillFrom_append (src : List Nat) :
    ∀ (A C : List Nat), src.length ≤ C.length →
      fillFrom (A ++ C) A.length src =
        A ++ src.map (· % 256) ++ C.drop src.length := by
  induction src with
  | nil =>
    intro A C _
    simp [fillFrom]
  | cons b rest ih =>
    intro A C h
    match C with
    | [] => simp at h
    | c :: C' =>
      show fillFrom ((A ++ c :: C').set A.length (b % 256))
          (A.length + 1) rest = _
      have hset : (A ++ c :: C').set A.length (b % 256) =
          (A ++ [b % 256]) ++ C' := by
        rw [List.set_append, if_neg (by omega)]
        simp
      rw [hset, show A.length + 1 = (A ++ [b % 256]).length by simp]
      rw [ih (A ++ [b % 256]) C' (by simp at h; omega)]
      simp

/-- For any byte lists, the RA2 credentials buffer is the tightly packed
`userLen ‖ username ‖ passLen ‖ password` with no separator byte. -/
theorem ra2Credentials_eq (u p : List Nat) :
    ra2Credentials u p =
      u.length % 256 :: u.map (· % 256) ++
        p.length % 256 :: p.map (· % 256) := by
  unfold ra2Credentials
  have hrep : List.replicate (u.length + p.length + 2) 0 =
      (0 : Nat) :: List.replicate (u.length + p.length + 1) 0 := by
    rw [show u.length + p.length + 2 = (u.length + p.length + 1) + 1 by omega,
      List.replicate_succ]
  rw [hrep, List.set_cons_zero]
  have hset2 : (u.length % 256 :: List.replicate (u.length + p.length + 1) 0).set
      (u.length + 1) (p.length % 256) =
      (u.length % 256 :: List.replicate u.length 0) ++
        p.length % 256 :: List.replicate p.length 0 := by
    rw [List.set_cons_succ, List.set_eq_take_cons_drop _
      (by rw [List.length_replicate]; omega :
        u.length < (List.replicate (u.length + p.length + 1) (0:Nat)).length)]
    rw [List.take_replicate, List.drop_replicate]
    have h1 : u.length ⊓ (u.length + p.length + 1) = u.length :=
      inf_eq_left.mpr (by omega)
    have h2 : u.length + p.length + 1 - (u.length + 1) = p.length := by omega
    rw [h1, h2]
    simp
  rw [hset2]
  have hfill1 : fillFrom
      ((u.length % 256 :: List.replicate u.length 0) ++
        p.length % 256 :: List.replicate p.length 0) 1 u =
      ((u.length % 256 :: u.map (· % 256)) ++
        p.length % 256 :: List.replicate p.length 0) := by
    have : ((u.length % 256 :: List.replicate u.length 0) ++
        p.length % 256 :: List.replicate p.length 0) =
        [u.length % 256] ++ (List.replicate u.length 0 ++
          p.length % 256 :: List.replicate p.length 0) := by
      simp
    rw [this, show (1 : Nat) = [u.length % 256].length by simp]
    rw [fillFrom_append u [u.length % 256]
      (List.replicate u.length 0 ++ p.length % 256 :: List.replicate p.length 0)
      (by simp)]
    rw [List.drop_append_of_le_length (by simp), List.drop_replicate]
    simp
  rw [hfill1]
  have hfill2 : fillFrom
      ((u.length % 256 :: u.map (· % 256)) ++
        p.length % 256 :: List.replicate p.length 0) (u.length + 2) p =
      (u.length % 256 :: u.map (· % 256)) ++
        p.length % 256 :: p.map (· % 256) := by
    have hsplit : ((u.length % 256 :: u.map (· % 256)) ++
        p.length % 256 :: List.replicate p.length 0) =
        ((u.length % 256 :: u.map (· % 256)) ++ [p.length % 256]) ++
          List.replicate p.length 0 := by
      simp
    rw [hsplit, show u.length + 2 =
      ((u.length % 256 :: u.map (· % 256)) ++ [p.length % 256]).length by simp]
    rw [fillFrom_append p _ (List.replicate p.length 0) (by simp)]
    rw [List.drop_replicate]
    simp
  rw [hfill2]

/-- C3 counterexample: for username "A" and password "B" the credentials
plaintext is `[1, 65, 1, 66]`, not the `[1, 65, 0, 1, 66]` the claim's
0x00 separator would give. -/
theorem ra2Credentials_c3_counterexample :
    ra2Credentials [65] [66] ≠ ra2ClaimCredentials [65] [66] := by
  decide

/-- C3 (amended): the RA2ne step-7 plaintext is exactly
`u8 userLen ‖ username ‖ u8 passLen ‖ password`, tightly packed with no
separator byte, where the username is the credential truncated to 255
bytes when subtype is 1 and empty when subtype is 2, and the password is
truncated to 255 bytes. -/
theorem ra2CredentialsPlaintext_c3_amended (subtype : Nat) (user pass : List Nat)
    (hu : ∀ b ∈ user, b < 256) (hp : ∀ b ∈ pass, b < 256) :
    ra2CredentialsPlaintext subtype user pass =
      (if subtype = 1 then user.take 255 else []).length ::
        ((if subtype = 1 then user.take 255 else []) ++
          (pass.take 255).length :: pass.take 255) := by
  unfold ra2CredentialsPlaintext
  rw [ra2Credentials_eq]
  have hun : ∀ b ∈ (if subtype = 1 then user.take 255 else []), b < 256 := by
    intro b hb
    by_cases hs : subtype = 1
    · rw [if_pos hs] at hb
      exact hu b (List.take_subset 255 user hb)
    · rw [if_neg hs] at hb
      simp at hb
  have hpp : ∀ b ∈ pass.take 255, b < 256 :=
    fun b hb => hp b (List.take_subset 255 pass hb)
  have hl1 : (if subtype = 1 then user.take 255 else []).length < 256 := by
    by_cases hs : subtype = 1
    · rw [if_pos hs]
      have := List.length_take (l := user) 255
      omega
    · rw [if_neg hs]
      simp
  have hl2 : (pass.take 255).length < 256 := by
    have := List.length_take (l := pass) 255
    omega
  rw [map_mod_256_eq _ hun, map_mod_256_eq _ hpp,
    Nat.mod_eq_of_lt hl1, Nat.mod_eq_of_lt hl2]
  simp

/-- Closed witness for the amended C3 theorem, at subtype 2 with
password "B". -/
theorem ra2CredentialsPlaintext_c3_amended_witness :
    ra2CredentialsPlaintext 2 [65] [66] =
      (if 2 = 1 then [65].take 255 else []).length ::
        ((if 2 = 1 then [65].take 255 else []) ++
          ([66].take 255).length :: [66].take 255) :=
  ra2CredentialsPlaintext_c3_amended 2 [65] [66]
    (by decide) (by decide)



/-! ### C8 theorems -/

/-- C8: for every rectangle with zero width or height, CopyRect consumes
exactly its 4 srcX/srcY bytes and makes no `copyImage` call; RRE
consumes exactly the 4-byte subrect count (0 on the wire) plus the
4-byte background, its single renderer call covering zero pixels; Raw
consumes no bytes and makes no renderer call. -/
theorem zeroSizeRects_c8 (x y width height depth : Nat)
    (dx1 dx0 dy1 dy0 b0 b1 b2 b3 : Nat) (rest input : List Nat) :
    (width = 0 ∨ height = 0 →
      copyRectDecodeRect x y width height
          (dx1 :: dx0 :: dy1 :: dy0 :: rest) = (true, [], rest)) ∧
    (width = 0 ∨ height = 0 →
      rreDecodeRect x y width height 0
          (0 :: 0 :: 0 :: 0 :: b0 :: b1 :: b2 :: b3 :: rest) =
        .ok (0, [.fillRect x y width height (some [b0, b1, b2, b3])], rest) ∧
      dispArea (.fillRect x y width height (some [b0, b1, b2, b3])) = 0) ∧
    (width = 0 ∨ height = 0 →
      rawDecodeRect x y width height depth input = .ok ([], input)) := by
  refine ⟨?_, ?_, ?_⟩
  · intro h
    unfold copyRectDecodeRect
    simp only [if_pos h]
  · intro h
    constructor
    · unfold rreDecodeRect
      rw [if_pos rfl]
      norm_num
      rfl
    · unfold dispArea
      rcases h with h | h <;> simp [h]
  · intro h
    unfold rawDecodeRect
    rw [if_pos h]

/-- Closed witness for C8: a 0×5 rectangle through each decoder. -/
theorem zeroSizeRects_c8_witness :
    (copyRectDecodeRect 3 4 0 5 [1, 2, 3, 4, 9] = (true, [], [9])) ∧
    (rreDecodeRect 3 4 0 5 0 [0, 0, 0, 0, 7, 8, 9, 10, 9] =
      .ok (0, [.fillRect 3 4 0 5 (some [7, 8, 9, 10])], [9]) ∧
      dispArea (.fillRect 3 4 0 5 (some [7, 8, 9, 10])) = 0) ∧
    (rawDecodeRect 3 4 0 5 24 [13] = .ok ([], [13])) := by
  have h := zeroSizeRects_c8 3 4 0 5 24 1 2 3 4 7 8 9 10 [9] [13]
  refine ⟨?_, ?_, ?_⟩
  · have := h.1 (Or.inl rfl)
    simpa using this
  · have := h.2.1 (Or.inl rfl)
    simpa using this
  · exact h.2.2 (Or.inl rfl)

/-! ### C6 theorems -/

/-- Membership in the reset list is exactly a set low bit. -/
theorem mem_tightResets (ctl i : Nat) :
    ZAction.reset i ∈ tightResets ctl ↔
      i < 4 ∧ (ctl >>> i) &&& 1 = 1 := by
  unfold tightResets
  rw [List.mem_filterMap]
  constructor
  · rintro ⟨a, ha, hfa⟩
    rw [List.mem_range] at ha
    by_cases hb : (ctl >>> a) &&& 1 = 1
    · rw [if_pos hb] at hfa
      simp only [Option.some.injEq, ZAction.reset.injEq] at hfa
      subst hfa
      exact ⟨ha, hb⟩
    · rw [if_neg hb] at hfa
      exact absurd hfa (by simp)
  · rintro ⟨hi, hb⟩
    exact ⟨i, List.mem_range.mpr hi, by rw [if_pos hb]⟩

/-- A successful copy filter performs no reset. -/
theorem tightCopyFilter_acts (streamId width height : Nat)
    (input : List Nat) (acts : List ZAction) (rest : List Nat)
    (h : tightCopyFilter streamId width height input = .ok (acts, rest)) :
    acts = [] ∨ acts = [ZAction.inflate streamId] := by
  unfold tightCopyFilter at h
  simp only [] at h
  repeat' split at h
  all_goals first
    | (simp only [Except.ok.injEq, Prod.mk.injEq] at h
       exact Or.inl h.1.symm)
    | (simp only [Except.ok.injEq, Prod.mk.injEq] at h
       exact Or.inr h.1.symm)
    | exact absurd h (by simp)

/-- A successful palette filter performs no reset. -/
theorem tightPaletteFilter_acts (streamId width height : Nat)
    (input : List Nat) (acts : List ZAction) (rest : List Nat)
    (h : tightPaletteFilter streamId width height input = .ok (acts, rest)) :
    acts = [] ∨ acts = [ZAction.inflate streamId] := by
  unfold tightPaletteFilter at h
  simp only [] at h
  repeat' split at h
  all_goals first
    | (simp only [Except.ok.injEq, Prod.mk.injEq] at h
       exact Or.inl h.1.symm)
    | (simp only [Except.ok.injEq, Prod.mk.injEq] at h
       exact Or.inr h.1.symm)
    | exact absurd h (by simp)

/-- A successful basic-compression rectangle inflates but never
resets. -/
theorem tightBasic_acts (ctl2 width height : Nat) (input : List Nat)
    (acts : List ZAction) (rest : List Nat)
    (h : tightBasic ctl2 width height input = .ok (acts, rest)) :
    acts = [] ∨ ∃ j, acts = [ZAction.inflate j] := by
  unfold tightBasic at h
  simp only [] at h
  repeat' split at h
  all_goals first
    | exact (tightCopyFilter_acts _ _ _ _ _ _ h).elim Or.inl
        (fun h' => Or.inr ⟨_, h'⟩)
    | exact (tightPaletteFilter_acts _ _ _ _ _ _ h).elim Or.inl
        (fun h' => Or.inr ⟨_, h'⟩)
    | exact absurd h (by simp)

/-- C6: on every Tight `decodeRect` call, inflate stream `i` is reset
exactly when bit `i` of the control byte is set; the resets happen
first, and nothing else in the call resets a stream, whichever
compression mode the upper control bits select. -/
theorem tightDecodeRect_c6 (width height ctl : Nat) (rest : List Nat) :
    (∀ i, ZAction.reset i ∈ (tightDecodeRect width height (ctl :: rest)).1 ↔
      (i < 4 ∧ (ctl >>> i) &&& 1 = 1)) ∧
    (∃ tail, (tightDecodeRect width height (ctl :: rest)).1 =
      tightResets ctl ++ tail ∧ ∀ a ∈ tail, ∀ i, a ≠ ZAction.reset i) := by
  have key : ∃ tail, (tightDecodeRect width height (ctl :: rest)).1 =
      tightResets ctl ++ tail ∧ ∀ a ∈ tail, ∀ i, a ≠ ZAction.reset i := by
    unfold tightDecodeRect
    simp only []
    by_cases h8 : ctl >>> 4 = 0x08
    · rw [if_pos h8]
      exact ⟨[], by simp, by simp⟩
    · rw [if_neg h8]
      by_cases h9 : ctl >>> 4 = 0x09
      · rw [if_pos h9]
        exact ⟨[], by simp, by simp⟩
      · rw [if_neg h9]
        by_cases hA : ctl >>> 4 = 0x0A
        · rw [if_pos hA]
          exact ⟨[], by simp, by simp⟩
        · rw [if_neg hA]
          by_cases hB : (ctl >>> 4) &&& 0x08 = 0
          · rw [if_pos hB]
            cases htb : tightBasic (ctl >>> 4) width height rest with
            | error e => exact ⟨[], by simp, by simp⟩
            | ok p =>
              refine ⟨p.1, by simp, ?_⟩
              intro a ha i
              rcases tightBasic_acts _ _ _ _ _ _
                  (show tightBasic (ctl >>> 4) width height rest =
                    .ok (p.1, p.2) from by rw [htb]) with h' | ⟨j, h'⟩
              · rw [h'] at ha
                simp at ha
              · rw [h'] at ha
                simp at ha
                rw [ha]
                simp
          · rw [if_neg hB]
            exact ⟨[], by simp, by simp⟩
  refine ⟨?_, key⟩
  intro i
  rcases key with ⟨tail, heq, hne⟩
  rw [heq, List.mem_append, mem_tightResets]
  constructor
  · rintro (h | h)
    · exact h
    · exact absurd rfl (hne _ h i)
  · exact Or.inl

/-- Closed witness for C6 at control byte 0x85 (reset streams 0 and 2,
then a fill rectangle). -/
theorem tightDecodeRect_c6_witness :
    (ZAction.reset 0 ∈ (tightDecodeRect 4 4 [0x85, 1, 2, 3]).1 ↔
      (0 < 4 ∧ (0x85 >>> 0) &&& 1 = 1)) ∧
    (∃ tail, (tightDecodeRect 4 4 [0x85, 1, 2, 3]).1 =
      tightResets 0x85 ++ tail ∧ ∀ a ∈ tail, ∀ i, a ≠ ZAction.reset i) :=
  ⟨(tightDecodeRect_c6 4 4 0x85 [1, 2, 3]).1 0,
   (tightDecodeRect_c6 4 4 0x85 [1, 2, 3]).2⟩

/-! ### C4 theorems -/

/-- C4: a Hextile tile with subencoding byte 0 immediately following a
tile whose subencoding had the Raw bit set makes no renderer call and
leaves the pixels untouched; a subencoding-0 tile in any other position
fills the tile with the current background colour. -/
theorem hextileTile_c4 (x y width height tilesX currTile : Nat)
    (st : HexState) (rest : List Nat) :
    (st.lastSubEncoding &&& 0x01 ≠ 0 →
      hextileTile x y width height tilesX currTile st (0 :: rest) =
        .ok ({ st with lastSubEncoding := 0 }, [], rest)) ∧
    (st.lastSubEncoding &&& 0x01 = 0 →
      hextileTile x y width height tilesX currTile st (0 :: rest) =
        .ok ({ st with lastSubEncoding := 0 },
          [.fillRect (x + currTile % tilesX * 16)
            (y + currTile / tilesX * 16)
            (min 16 (x + width - (x + currTile % tilesX * 16)))
            (min 16 (y + height - (y + currTile / tilesX * 16)))
            st.background], rest)) := by
  constructor
  · intro h
    simp only [hextileTile]
    rw [if_pos trivial, if_pos h, if_neg (by omega : ¬ (0 : Nat) > 30)]
  · intro h
    simp only [hextileTile]
    rw [if_pos trivial,
      if_neg (show ¬ st.lastSubEncoding &&& 0x01 ≠ 0 by simp [h]),
      if_neg (by omega : ¬ (0 : Nat) > 30)]

/-- Closed witness for C4: after a Raw tile (`lastSubEncoding = 1`) a
blank tile is ignored; with `lastSubEncoding = 0` it fills with the
current background. -/
theorem hextileTile_c4_witness :
    (hextileTile 0 0 32 16 2 1
        ⟨List.replicate 1024 0, none, some [1, 2, 3, 4], 1⟩ (0 :: [7]) =
      .ok ({ tileBuffer := List.replicate 1024 0, foreground := none,
             background := some [1, 2, 3, 4], lastSubEncoding := 0 },
           [], [7])) ∧
    (hextileTile 0 0 32 16 2 1
        ⟨List.replicate 1024 0, none, some [1, 2, 3, 4], 0⟩ (0 :: [7]) =
      .ok ({ tileBuffer := List.replicate 1024 0, foreground := none,
             background := some [1, 2, 3, 4], lastSubEncoding := 0 },
           [.fillRect (0 + 1 % 2 * 16) (0 + 1 / 2 * 16)
              (min 16 (0 + 32 - (0 + 1 % 2 * 16)))
              (min 16 (0 + 16 - (0 + 1 / 2 * 16)))
              (some [1, 2, 3, 4])], [7])) := by
  constructor
  · exact (hextileTile_c4 0 0 32 16 2 1
      ⟨List.replicate 1024 0, none, some [1, 2, 3, 4], 1⟩ [7]).1 (by decide)
  · exact (hextileTile_c4 0 0 32 16 2 1
      ⟨List.replicate 1024 0, none, some [1, 2, 3, 4], 0⟩ [7]).2 (by decide)

/-! ### C9 theorems -/

/-- C9: in `_handleSecurityResult`, a version below 3.7 moves straight to
ClientInitialisation reading nothing; otherwise a u32 status is read and
status 0 moves to ClientInitialisation; a non-zero status on 3.8 moves to
SecurityReason; a non-zero status on 3.7 dispatches a `securityfailure`
event and throws `Security handshake failed`. -/
theorem handleSecurityResult_c9 (version : Nat) (s3 s2 s1 s0 : Nat)
    (rest : List Nat) (hv : version = 33 ∨ version = 37 ∨ version = 38) :
    (version = 33 →
      handleSecurityResult version (s3 :: s2 :: s1 :: s0 :: rest) =
        ([], .ok (.ClientInitialisation, none, s3 :: s2 :: s1 :: s0 :: rest))) ∧
    (version ≥ 37 → s3 * 16777216 + s2 * 65536 + s1 * 256 + s0 = 0 →
      handleSecurityResult version (s3 :: s2 :: s1 :: s0 :: rest) =
        ([], .ok (.ClientInitialisation, none, rest))) ∧
    (version = 38 → s3 * 16777216 + s2 * 65536 + s1 * 256 + s0 ≠ 0 →
      handleSecurityResult version (s3 :: s2 :: s1 :: s0 :: rest) =
        ([], .ok (.SecurityReason,
                   some (s3 * 16777216 + s2 * 65536 + s1 * 256 + s0), rest))) ∧
    (version = 37 → s3 * 16777216 + s2 * 65536 + s1 * 256 + s0 ≠ 0 →
      handleSecurityResult version (s3 :: s2 :: s1 :: s0 :: rest) =
        ([s3 * 16777216 + s2 * 65536 + s1 * 256 + s0],
          .error "Security handshake failed")) := by
  refine ⟨?_, ?_, ?_, ?_⟩
  · intro h
    subst h
    simp [handleSecurityResult]
  · intro h hs
    unfold handleSecurityResult
    rw [if_neg (by omega)]
    simp [hs]
  · intro h hs
    subst h
    unfold handleSecurityResult
    rw [if_neg (by omega)]
    simp [if_neg hs]
    omega
  · intro h hs
    subst h
    unfold handleSecurityResult
    rw [if_neg (by omega)]
    simp [if_neg hs]
    omega

/-- Closed witness for C9: all four behaviours at concrete inputs. -/
theorem handleSecurityResult_c9_witness :
    (handleSecurityResult 33 [0, 0, 0, 1] =
      ([], .ok (.ClientInitialisation, none, [0, 0, 0, 1]))) ∧
    (handleSecurityResult 38 [0, 0, 0, 0] =
      ([], .ok (.ClientInitialisation, none, []))) ∧
    (handleSecurityResult 38 [0, 0, 0, 1] =
      ([], .ok (.SecurityReason, some 1, []))) ∧
    (handleSecurityResult 37 [0, 0, 0, 1] =
      ([1], .error "Security handshake failed")) := by
  refine ⟨?_, ?_, ?_, ?_⟩
  · exact (handleSecurityResult_c9 33 0 0 0 1 [] (by decide)).1 rfl
  · exact (handleSecurityResult_c9 38 0 0 0 0 [] (by decide)).2.1
      (by decide) (by decide)
  · have := (handleSecurityResult_c9 38 0 0 0 1 [] (by decide)).2.2.1
      rfl (by decide)
    simpa using this
  · have := (handleSecurityResult_c9 37 0 0 0 1 [] (by decide)).2.2.2
      rfl (by decide)
    simpa using this

/-! ### C10 theorems -/

/-- C10: a ServerFence whose length byte exceeds 64 has exactly 64 payload
bytes consumed (the excess stays in the receive queue), and a ServerFence
whose flags lack the Request bit (1<<31) raises the fatal error
`Unexpected fence response`. -/
theorem handleServerFenceMsg_c10 (p1 p2 p3 f3 f2 f1 f0 len : Nat)
    (rest : List Nat) :
    (len > 64 → 64 ≤ rest.length →
      f3 * 16777216 + f2 * 65536 + f1 * 256 + f0 ≥ 2147483648 →
      f3 * 16777216 + f2 * 65536 + f1 * 256 + f0 < 4294967296 →
      handleServerFenceMsg (p1 :: p2 :: p3 :: f3 :: f2 :: f1 :: f0 :: len :: rest) =
        .ok ((f3 * 16777216 + f2 * 65536 + f1 * 256 + f0) &&& 3,
             rest.take 64, rest.drop 64)) ∧
    ((f3 * 16777216 + f2 * 65536 + f1 * 256 + f0) &&& 2147483648 = 0 →
      (if len > 64 then 64 else len) ≤ rest.length →
      handleServerFenceMsg (p1 :: p2 :: p3 :: f3 :: f2 :: f1 :: f0 :: len :: rest) =
        .error "Unexpected fence response") := by
  constructor
  · intro hlen hrest hbit hub
    unfold handleServerFenceMsg
    simp only [if_pos hlen]
    rw [if_pos hrest]
    have hset : (f3 * 16777216 + f2 * 65536 + f1 * 256 + f0) &&& 2147483648 ≠ 0 := by
      set F := f3 * 16777216 + f2 * 65536 + f1 * 256 + f0 with hF
      have h31 : F.testBit 31 = true := by
        rw [Nat.testBit_to_div_mod]
        simp only [decide_eq_true_eq]
        omega
      have := Nat.and_two_pow F 31
      rw [show (2147483648 : Nat) = 2 ^ 31 by norm_num]
      rw [this, h31]
      simp
    rw [if_neg hset]
  · intro hbit hrest
    unfold handleServerFenceMsg
    simp only
    rw [if_pos hrest, if_pos hbit]

/-- Closed witness for C10: an oversize length byte consumes exactly 64
payload bytes, and a fence without the Request bit throws. -/
theorem handleServerFenceMsg_c10_witness :
    (handleServerFenceMsg
        (0 :: 0 :: 0 :: 128 :: 0 :: 0 :: 0 :: 100 :: List.replicate 70 7) =
      .ok (0, List.replicate 64 7, List.replicate 6 7)) ∧
    (handleServerFenceMsg (0 :: 0 :: 0 :: 0 :: 0 :: 0 :: 3 :: 1 :: [9]) =
      .error "Unexpected fence response") := by
  constructor
  · have h := (handleServerFenceMsg_c10 0 0 0 128 0 0 0 100
        (List.replicate 70 7)).1 (by decide) (by decide) (by norm_num) (by norm_num)
    rw [h]
    rfl
  · exact (handleServerFenceMsg_c10 0 0 0 0 0 0 3 1 [9]).2 (by decide) (by decide)

end NoVNC
